import Mathlib

/-!
# Verification of `backend/common/resource.py` (Planet-Lab)

A shallow embedding of the generic REST-resource layer of the Planet-Lab
backend (`src/backend/src/backend/common/resource.py`) together with proofs
of the testable properties of its specification.

Modelling conventions:

* Python values exchanged through request payloads, parsed-argument
  dictionaries and entity attributes are modelled by the inductive `PyVal`
  (`none` is Python's `None`/JSON `null`).
* Python dictionaries are association lists with unique keys maintained by
  `setKey` (Python `d[k] = v` assignment semantics: overwrite in place,
  append if absent).
* Python objects (SQLAlchemy entities) are modelled as total functions from
  attribute names to `PyVal`; `setattr` is pointwise function update.
* Conversion functions (`type` arguments of `add_argument`) are modelled as
  `PyVal → Except String PyVal`; an `Except.error msg` models the function
  raising an exception with message `msg`.
* The transactional database session is explicit state: controller
  operations take the stored rows and return the rows after commit.
  A storage-layer `IntegrityError` that the code does not catch is modelled
  by the operation returning `Except.error IntegrityError.constraintViolation`
  — the raw low-level error propagating to the caller.
-/

/-- A Python value as it appears in JSON payloads, parsed-argument
dictionaries and entity attributes.  `PyVal.none` is Python's `None`. -/
inductive PyVal where
  | none : PyVal
  | int : Int → PyVal
  | str : String → PyVal
  | bool : Bool → PyVal
deriving DecidableEq, Repr

/-- Python `==` between values, used when the source compares two Python
objects.  Values of different types compare unequal, except that Python
booleans compare equal to the integers 0 and 1. -/
def pyEq : PyVal → PyVal → Bool
  | PyVal.none, PyVal.none => true
  | PyVal.int m, PyVal.int n => m == n
  | PyVal.str s, PyVal.str t => s == t
  | PyVal.bool a, PyVal.bool b => a == b
  | PyVal.bool a, PyVal.int n => (if a then (1 : Int) else 0) == n
  | PyVal.int n, PyVal.bool a => n == (if a then (1 : Int) else 0)
  | _, _ => false

/-- A request payload: the raw incoming key-value body.  A key that is
absent models a field missing from the request; a key mapped to
`PyVal.none` models an explicit JSON `null`. -/
abbrev Payload : Type := List (String × PyVal)

/-- A parsed-argument dictionary (the result of `parse_args`), and also the
keyword-argument dictionaries built by the controllers. -/
abbrev Args : Type := List (String × PyVal)

/-- Python dictionary assignment `d[k] = v`: overwrite the value at `k` if
the key is present (keeping its position), otherwise append the pair. -/
def setKey : Args → String → PyVal → Args
  | [], k, v => [(k, v)]
  | (k', v') :: rest, k, v =>
      if k' = k then (k, v) :: rest else (k', v') :: setKey rest k v

/-- An error surfaced to the HTTP layer by argument parsing: flask_restful
turns any exception raised by a stored conversion function, as well as a
missing required argument, into a 400 response naming the offending
field. -/
inductive PyErr where
  | validationError (field : String) (msg : String)
deriving DecidableEq, Repr

/-- An argument declaration handed to `RequestParser.add_argument`: the
field name, the `required` keyword (defaulting to false, as in
flask_restful), and the optional `type` keyword holding the conversion
function. -/
structure Argument where
  name : String
  required : Bool := false
  type : Option (PyVal → Except String PyVal) := Option.none

namespace RequestParser

/-- The wrapper installed by `RequestParser.add_argument` when the argument
is required (`resource.py` lines 31-38): raise
`ValueError("Required value may not be null")` on `None`, otherwise defer
to the declared conversion function. -/
def new_type_func_required (type_func : PyVal → Except String PyVal) :
    PyVal → Except String PyVal := fun arg =>
  if arg = PyVal.none then Except.error "Required value may not be null"
  else type_func arg

/-- The wrapper installed by `RequestParser.add_argument` when the argument
is optional (`resource.py` lines 39-46): return `None` unchanged without
calling the declared conversion function, otherwise defer to it. -/
def new_type_func_optional (type_func : PyVal → Except String PyVal) :
    PyVal → Except String PyVal := fun arg =>
  if arg = PyVal.none then Except.ok arg
  else type_func arg

/-- `RequestParser.add_argument` (`resource.py` lines 19-50): replace the
declared conversion function in place by the wrapper matching the
`required` flag; an argument declared without a conversion function is
stored unchanged. -/
def add_argument (a : Argument) : Argument :=
  match a.type with
  | Option.some type_func =>
      let new_type_func :=
        if a.required then new_type_func_required type_func
        else new_type_func_optional type_func
      { a with type := Option.some new_type_func }
  | Option.none => a

end RequestParser

/-- The stored schema a parser holds after every declared argument has gone
through `RequestParser.add_argument`. -/
def parserOf (ds : List Argument) : List Argument :=
  ds.map RequestParser.add_argument

/-- Modelled from the spec: the per-argument parsing step of the external
framework (`flask_restful.reqparse`), which is not part of this
repository.  Per the spec (§4.1): an absent required field fails with a
`ValidationError`; an absent optional field yields null; a present raw
value is handed to the stored conversion function when one is declared
(the wrappers installed by `RequestParser.add_argument` above), with an
exception from it surfaced as a `ValidationError` naming the field; a
present raw value of a field without a conversion function passes through
unmodified, subject to the required-null check. -/
def parseArg (a : Argument) (p : Payload) : Except PyErr PyVal :=
  match p.lookup a.name with
  | Option.none =>
      if a.required then
        Except.error (PyErr.validationError a.name "Required value may not be null")
      else Except.ok PyVal.none
  | Option.some v =>
      match a.type with
      | Option.some type_func =>
          match type_func v with
          | Except.ok w => Except.ok w
          | Except.error msg => Except.error (PyErr.validationError a.name msg)
      | Option.none =>
          if a.required ∧ v = PyVal.none then
            Except.error (PyErr.validationError a.name "Required value may not be null")
          else Except.ok v

/-- Modelled from the spec: the driver loop of `parse_args` of the external
framework, which is not part of this repository.  The stored arguments are
parsed in declaration order into a dictionary; the first failing argument
aborts the request with its `ValidationError`. -/
def parseInto (acc : Args) (sch : List Argument) (p : Payload) : Except PyErr Args :=
  match sch with
  | [] => Except.ok acc
  | a :: rest =>
      match parseArg a p with
      | Except.error e => Except.error e
      | Except.ok v => parseInto (setKey acc a.name v) rest p

/-- `parser.parse_args()` over a stored schema and a raw payload. -/
def parse_args (sch : List Argument) (p : Payload) : Except PyErr Args :=
  parseInto [] sch p

/-- A persistent entity (SQLAlchemy model instance): a Python object read
through its attributes.  An attribute never written is whatever the row
held before (for a freshly constructed entity, the column default
`PyVal.none`). -/
abbrev Entity : Type := String → PyVal

/-- Python `setattr(resource, key, value)`: pointwise attribute update. -/
def setattr (r : Entity) (key : String) (value : PyVal) : Entity :=
  fun a => if a = key then value else r a

/-- The `for key, value in update.iteritems(): setattr(resource, key, value)`
loop of `SimpleResource.put` (`resource.py` lines 91-92). -/
def applyUpdate (r : Entity) : Args → Entity
  | [] => r
  | (key, value) :: rest => applyUpdate (setattr r key value) rest

/-- `resource_type(**args)`: a freshly constructed entity whose attributes
are the keyword arguments; columns not mentioned keep the default
`PyVal.none`. -/
def entityOf (args : Args) : Entity :=
  fun a => (args.lookup a).getD PyVal.none

/-- A storage-layer constraint rejection (`sqlalchemy.exc.IntegrityError`):
the session refuses an insert or delete because of a uniqueness or
foreign-key rule. -/
inductive IntegrityError where
  | constraintViolation : IntegrityError
deriving DecidableEq, Repr

/-- The outcome a controller hands back to the HTTP layer. -/
inductive RestResult where
  | ok (r : Entity)
  | created (r : Entity)
  | notFound
  | badRequest (err : PyErr)
  | okEmpty

/-- `self.query(*args, **kwargs).first()`: the first stored row matched by
the selector, if any. -/
def queryFirst (sel : Entity → Bool) (db : List Entity) : Option Entity :=
  (db.filter sel).head?

/-- Committing an in-place mutation of the row returned by `first()`:
the first stored row matched by the selector is replaced by its mutated
state; every other row is untouched. -/
def replaceFirst (sel : Entity → Bool) (r' : Entity) : List Entity → List Entity
  | [] => []
  | r :: rest => if sel r then r' :: rest else r :: replaceFirst sel r' rest

namespace SimpleResource

/-- `SimpleResource.get` (`resource.py` lines 76-82): serialize the first
matching row, or answer 404 when there is none. -/
def get (sel : Entity → Bool) (db : List Entity) : RestResult :=
  match queryFirst sel db with
  | Option.none => RestResult.notFound
  | Option.some resource => RestResult.ok resource

/-- `SimpleResource.put` (`resource.py` lines 84-94): locate the resource;
404 when absent (the parser is never consulted); otherwise parse the
request, `setattr` every parsed field onto the located entity, commit, and
return the updated entity.  The result pairs the database after commit
with the HTTP outcome. -/
def put (sch : List Argument) (sel : Entity → Bool) (db : List Entity)
    (p : Payload) : List Entity × RestResult :=
  match queryFirst sel db with
  | Option.none => (db, RestResult.notFound)
  | Option.some resource =>
      match parse_args sch p with
      | Except.error e => (db, RestResult.badRequest e)
      | Except.ok update =>
          let resource' := applyUpdate resource update
          (replaceFirst sel resource' db, RestResult.ok resource')

/-- `SimpleResource.delete` (`resource.py` lines 96-103): bulk-delete every
row matching the selector, commit, and answer 404 exactly when no row was
deleted. -/
def delete (sel : Entity → Bool) (db : List Entity) :
    List Entity × RestResult :=
  let rows_deleted := (db.filter sel).length
  let db' := db.filter (fun r => !sel r)
  (db', if rows_deleted = 0 then RestResult.notFound else RestResult.okEmpty)

end SimpleResource

/-- The storage layer's verdict on inserting a new row: a constraint
predicate `violates` abstracts the uniqueness and foreign-key rules the
schema imposes; when it holds for the new row, `session.commit()` raises
`IntegrityError`. -/
def dbInsert (violates : Entity → Bool) (r : Entity) :
    Except IntegrityError Entity :=
  if violates r then Except.error IntegrityError.constraintViolation
  else Except.ok r

namespace SimpleCreate

/-- `SimpleCreate.post` (`resource.py` lines 119-128): parse the request,
inject the caller's identity as `creator_id`, construct the entity, add
and commit.  The commit is NOT wrapped in any exception handler, so a
storage-layer `IntegrityError` propagates to the caller (`Except.error`). -/
def post (sch : List Argument) (current_user_id : PyVal)
    (violates : Entity → Bool) (p : Payload) :
    Except IntegrityError RestResult :=
  match parse_args sch p with
  | Except.error e => Except.ok (RestResult.badRequest e)
  | Except.ok args₀ =>
      let args := setKey args₀ "creator_id" current_user_id
      let new_resource := entityOf args
      match dbInsert violates new_resource with
      | Except.error err => Except.error err
      | Except.ok r => Except.ok (RestResult.created r)

end SimpleCreate

namespace ManyToOneLink

/-- `ManyToOneLink.build_args` (`resource.py` lines 154-161): the parsed
arguments, then `creator_id` set to the caller's identity, then the
declared parent-reference field set to the given parent id. -/
def build_args (sch : List Argument) (parent_id_name : String)
    (current_user_id : PyVal) (parent_id : PyVal) (p : Payload) :
    Except PyErr Args :=
  match parse_args sch p with
  | Except.error e => Except.error e
  | Except.ok args₀ =>
      Except.ok (setKey (setKey args₀ "creator_id" current_user_id)
        parent_id_name parent_id)

/-- `ManyToOneLink.create_resource` (`resource.py` lines 163-176): insert
the new child; an `IntegrityError` from the commit is caught and answered
with 404 (the parent does not exist), so the operation itself never lets
the low-level error escape (its `Except` layer is always `ok`). -/
def create_resource (violates : Entity → Bool) (args : Args) :
    Except IntegrityError RestResult :=
  let new_resource := entityOf args
  match dbInsert violates new_resource with
  | Except.error _ => Except.ok RestResult.notFound
  | Except.ok r => Except.ok (RestResult.created r)

/-- `ManyToOneLink.post` (`resource.py` lines 149-152): build the argument
dictionary and create the child. -/
def post (sch : List Argument) (parent_id_name : String)
    (current_user_id : PyVal) (violates : Entity → Bool)
    (parent_id : PyVal) (p : Payload) : Except IntegrityError RestResult :=
  match build_args sch parent_id_name current_user_id parent_id p with
  | Except.error e => Except.ok (RestResult.badRequest e)
  | Except.ok args => create_resource violates args

/-- The referential-integrity rule for a child insert: the storage layer
rejects the row iff the value of its parent-reference column is not the id
of any existing parent. -/
def fkViolates (parents : List PyVal) (parent_id_name : String) :
    Entity → Bool :=
  fun r => !(parents.contains (r parent_id_name))

end ManyToOneLink

namespace ManyToManyLink

/-- The join relation: the stored association rows, each holding the two
foreign-key values in declaration order. -/
abbrev JoinTable : Type := List (PyVal × PyVal)

/-- The storage layer executing `join_table.insert().values(...)`: the join
relation carries a uniqueness constraint on the pair, so inserting an
already-present pair raises `IntegrityError`; otherwise the row is
appended. -/
def joinInsert (tbl : JoinTable) (left_id right_id : PyVal) :
    Except IntegrityError JoinTable :=
  if (left_id, right_id) ∈ tbl then
    Except.error IntegrityError.constraintViolation
  else Except.ok (tbl ++ [(left_id, right_id)])

/-- `ManyToManyLink.put` (`resource.py` lines 198-210): insert the
association row; a unique-constraint `IntegrityError` is caught and
silently ignored (`pass`), leaving the relation as it was.  The `Except`
layer records that no error escapes: the result is always `ok` with the
relation after the call. -/
def put (tbl : JoinTable) (left_id right_id : PyVal) :
    Except IntegrityError JoinTable :=
  match joinInsert tbl left_id right_id with
  | Except.ok tbl' => Except.ok tbl'
  | Except.error _ => Except.ok tbl

/-- `ManyToManyLink.delete` (`resource.py` lines 212-221), embedded
faithfully from the source.  The `where` clause is built from the Python
expressions `self.left_id_name == left_id` and
`self.right_id_name == right_id`.  Modelled from the spec: the subclass
bindings of `left_id_name`/`right_id_name` are not part of `resource.py`;
per the spec's data model the join relation's two foreign-key columns are
declared by name, and the `*_id_name` convention of this file
(`parent_id_name` is used as a `**kwargs` key in `build_args`, hence a
string) makes them field-name strings.  Python therefore evaluates each
comparison between the column-name string and the id before SQLAlchemy
sees it, producing two constant booleans; the resulting `where` clause
holds either for every row or for none.  The call returns the relation
after the commit and answers 404 exactly when `rowcount` is zero. -/
def delete (left_id_name right_id_name : String) (tbl : JoinTable)
    (left_id right_id : PyVal) : JoinTable × RestResult :=
  let whereClause :=
    pyEq (PyVal.str left_id_name) left_id &&
    pyEq (PyVal.str right_id_name) right_id
  let rowcount := if whereClause then tbl.length else 0
  let tbl' := if whereClause then ([] : JoinTable) else tbl
  (tbl', if rowcount = 0 then RestResult.notFound else RestResult.okEmpty)

end ManyToManyLink

/-! ## Sample conversion functions

Concrete conversion functions used to instantiate the parser theorems:
a string validator, an integer validator, and a function that raises on
every input (in particular on null). -/

/-- A conversion function accepting exactly strings. -/
def strConv : PyVal → Except String PyVal := fun v =>
  match v with
  | PyVal.str s => Except.ok (PyVal.str s)
  | _ => Except.error "not a string"

/-- A conversion function accepting exactly integers. -/
def intConv : PyVal → Except String PyVal := fun v =>
  match v with
  | PyVal.int n => Except.ok (PyVal.int n)
  | _ => Except.error "not an int"

/-- A conversion function that raises on every input, null included. -/
def throwConv : PyVal → Except String PyVal := fun _ => Except.error "boom"

/-! ## Dictionary lemmas -/

theorem lookup_setKey_self (m : Args) (k : String) (v : PyVal) :
    (setKey m k v).lookup k = Option.some v := by
  induction m with
  | nil => simp [setKey, List.lookup]
  | cons kv rest ih =>
      obtain ⟨k', v'⟩ := kv
      by_cases h : k' = k
      · subst h
        simp [setKey, List.lookup]
      · simp only [setKey, if_neg h, List.lookup]
        have : (k == k') = false := by
          simp [beq_eq_false_iff_ne]
          exact fun hk => h hk.symm
        simp [this, ih]

theorem lookup_setKey_ne (m : Args) (k k' : String) (v : PyVal)
    (h : k' ≠ k) : (setKey m k v).lookup k' = m.lookup k' := by
  have hb : (k' == k) = false := beq_eq_false_iff_ne.mpr h
  induction m with
  | nil => simp [setKey, List.lookup, hb]
  | cons kv rest ih =>
      obtain ⟨k₀, v₀⟩ := kv
      by_cases hk : k₀ = k
      · subst hk
        have hb' : (k' == k₀) = false := hb
        simp [setKey, List.lookup, hb']
      · simp only [setKey, if_neg hk, List.lookup]
        cases hbeq : (k' == k₀) with
        | true => rfl
        | false => exact ih

/-- The keys of a dictionary after `d[k] = v`: unchanged when `k` was
already a key, extended by `k` at the end otherwise. -/
theorem keys_setKey (m : Args) (k : String) (v : PyVal) :
    (setKey m k v).map Prod.fst =
      if k ∈ m.map Prod.fst then m.map Prod.fst
      else m.map Prod.fst ++ [k] := by
  induction m with
  | nil => simp [setKey]
  | cons kv rest ih =>
      obtain ⟨k₀, v₀⟩ := kv
      by_cases hk : k₀ = k
      · subst hk
        simp [setKey]
      · have hne : k ≠ k₀ := fun hkk => hk hkk.symm
        simp only [setKey, if_neg hk, List.map_cons]
        by_cases hmem : k ∈ rest.map Prod.fst
        · simp [ih, hmem, hne]
        · simp [ih, hmem, hne]

theorem mem_keys_setKey (m : Args) (k : String) (v : PyVal) :
    k ∈ (setKey m k v).map Prod.fst := by
  rw [keys_setKey]
  by_cases h : k ∈ m.map Prod.fst
  · simp [h]
  · simp [h]

theorem mem_keys_setKey_of_mem (m : Args) (k k' : String) (v : PyVal)
    (h : k' ∈ m.map Prod.fst) : k' ∈ (setKey m k v).map Prod.fst := by
  rw [keys_setKey]
  by_cases hm : k ∈ m.map Prod.fst
  · rw [if_pos hm]; exact h
  · rw [if_neg hm]
    exact List.mem_append.mpr (Or.inl h)

theorem keys_setKey_subset (m : Args) (k k' : String) (v : PyVal)
    (h : k' ∈ (setKey m k v).map Prod.fst) :
    k' = k ∨ k' ∈ m.map Prod.fst := by
  rw [keys_setKey] at h
  by_cases hm : k ∈ m.map Prod.fst
  · rw [if_pos hm] at h
    exact Or.inr h
  · rw [if_neg hm] at h
    rcases List.mem_append.mp h with h' | h'
    · exact Or.inr h'
    · exact Or.inl (by simpa using h')

theorem keys_setKey_nodup (m : Args) (k : String) (v : PyVal)
    (h : (m.map Prod.fst).Nodup) : ((setKey m k v).map Prod.fst).Nodup := by
  rw [keys_setKey]
  by_cases hm : k ∈ m.map Prod.fst
  · rw [if_pos hm]; exact h
  · rw [if_neg hm]
    refine List.Nodup.append h (List.nodup_singleton k) ?_
    intro a ha hb
    simp at hb
    subst hb
    exact hm ha

theorem mem_setKey (m : Args) (k : String) (v : PyVal) (kv : String × PyVal) :
    kv ∈ setKey m k v → kv = (k, v) ∨ kv ∈ m := by
  induction m with
  | nil =>
      intro h
      simp only [setKey, List.mem_singleton] at h
      exact Or.inl h
  | cons kv₀ rest ih =>
      obtain ⟨k₀, v₀⟩ := kv₀
      by_cases hk : k₀ = k
      · subst hk
        intro h
        simp only [setKey, if_pos rfl] at h
        rcases List.mem_cons.mp h with h' | h'
        · exact Or.inl h'
        · exact Or.inr (List.mem_cons_of_mem _ h')
      · intro h
        simp only [setKey, if_neg hk] at h
        rcases List.mem_cons.mp h with h' | h'
        · exact Or.inr (by simp [h'])
        · rcases ih h' with h'' | h''
          · exact Or.inl h''
          · exact Or.inr (List.mem_cons_of_mem _ h'')

theorem values_setKey_none (m : Args) (k : String)
    (h : ∀ kv ∈ m, kv.2 = PyVal.none) :
    ∀ kv ∈ setKey m k PyVal.none, kv.2 = PyVal.none := by
  intro kv hkv
  rcases mem_setKey m k PyVal.none kv hkv with h' | h'
  · simp [h']
  · exact h kv h'

/-! ## `add_argument` lemmas -/

theorem add_argument_name (a : Argument) :
    (RequestParser.add_argument a).name = a.name := by
  unfold RequestParser.add_argument
  cases a.type <;> rfl

theorem add_argument_required (a : Argument) :
    (RequestParser.add_argument a).required = a.required := by
  unfold RequestParser.add_argument
  cases a.type <;> rfl

theorem parserOf_names (ds : List Argument) :
    (parserOf ds).map Argument.name = ds.map Argument.name := by
  unfold parserOf
  rw [List.map_map]
  exact List.map_congr_left fun a _ => add_argument_name a

/-- An argument declared with a conversion function and `required = true`
is stored with the null-rejecting wrapper. -/
theorem add_argument_required_type (a : Argument)
    (f : PyVal → Except String PyVal)
    (hreq : a.required = true) (hf : a.type = Option.some f) :
    RequestParser.add_argument a =
      { a with type := Option.some (RequestParser.new_type_func_required f) } := by
  unfold RequestParser.add_argument
  rw [hf]
  simp [hreq]

/-- An argument declared with a conversion function and `required = false`
is stored with the null-bypassing wrapper. -/
theorem add_argument_optional_type (a : Argument)
    (f : PyVal → Except String PyVal)
    (hopt : a.required = false) (hf : a.type = Option.some f) :
    RequestParser.add_argument a =
      { a with type := Option.some (RequestParser.new_type_func_optional f) } := by
  unfold RequestParser.add_argument
  rw [hf]
  simp [hopt]

/-- An argument declared without a conversion function is stored
unchanged. -/
theorem add_argument_no_type (a : Argument) (hf : a.type = Option.none) :
    RequestParser.add_argument a = a := by
  unfold RequestParser.add_argument
  rw [hf]

/-! ## `parse_args` driver lemmas -/

theorem parseInto_error_of_mem (sch : List Argument) (p : Payload)
    (a : Argument) (e : PyErr) (ha : a ∈ sch)
    (herr : parseArg a p = Except.error e) :
    ∀ acc, ∃ err, parseInto acc sch p = Except.error err := by
  induction sch with
  | nil => cases ha
  | cons b rest ih =>
      intro acc
      cases hpb : parseArg b p with
      | error e' =>
          exact ⟨e', by simp [parseInto, hpb]⟩
      | ok v =>
          rcases List.mem_cons.mp ha with hab | hab
          · subst hab
            rw [hpb] at herr
            cases herr
          · rcases ih hab (setKey acc b.name v) with ⟨err, herr'⟩
            exact ⟨err, by simp [parseInto, hpb, herr']⟩

theorem parseInto_keys (sch : List Argument) (p : Payload) :
    ∀ acc m, parseInto acc sch p = Except.ok m →
      ∀ k, k ∈ m.map Prod.fst →
        k ∈ acc.map Prod.fst ∨ k ∈ sch.map Argument.name := by
  induction sch with
  | nil =>
      intro acc m hm k hk
      simp only [parseInto] at hm
      cases hm
      exact Or.inl hk
  | cons b rest ih =>
      intro acc m hm k hk
      cases hpb : parseArg b p with
      | error e' => simp [parseInto, hpb] at hm
      | ok v =>
          simp only [parseInto, hpb] at hm
          rcases ih (setKey acc b.name v) m hm k hk with h' | h'
          · rcases keys_setKey_subset acc b.name k v h' with h'' | h''
            · exact Or.inr (by simp [h''])
            · exact Or.inl h''
          · exact Or.inr (by simp [h'])

theorem parseInto_lookup_not_mem (sch : List Argument) (p : Payload)
    (k : String) (hk : k ∉ sch.map Argument.name) :
    ∀ acc m, parseInto acc sch p = Except.ok m →
      m.lookup k = acc.lookup k := by
  induction sch with
  | nil =>
      intro acc m hm
      simp only [parseInto] at hm
      cases hm
      rfl
  | cons b rest ih =>
      intro acc m hm
      have hkb : k ≠ b.name := by
        intro hh
        exact hk (by simp [hh])
      have hkr : k ∉ rest.map Argument.name := by
        intro hh
        exact hk (by simp [hh])
      cases hpb : parseArg b p with
      | error e' => simp [parseInto, hpb] at hm
      | ok v =>
          simp only [parseInto, hpb] at hm
          rw [ih hkr (setKey acc b.name v) m hm]
          exact lookup_setKey_ne acc b.name k v hkb

theorem parseInto_lookup_of_mem (sch : List Argument) (p : Payload)
    (a : Argument) (v : PyVal)
    (hnd : (sch.map Argument.name).Nodup) (ha : a ∈ sch)
    (hv : parseArg a p = Except.ok v) :
    ∀ acc m, parseInto acc sch p = Except.ok m →
      m.lookup a.name = Option.some v := by
  induction sch with
  | nil => cases ha
  | cons b rest ih =>
      intro acc m hm
      have hnd' : (rest.map Argument.name).Nodup :=
        (List.nodup_cons.mp (by simpa using hnd)).2
      cases hpb : parseArg b p with
      | error e' => simp [parseInto, hpb] at hm
      | ok w =>
          simp only [parseInto, hpb] at hm
          rcases List.mem_cons.mp ha with hab | hab
          · subst hab
            have hbn : a.name ∉ rest.map Argument.name :=
              (List.nodup_cons.mp (by simpa using hnd)).1
            rw [hv] at hpb
            cases hpb
            rw [parseInto_lookup_not_mem rest p a.name hbn
              (setKey acc a.name v) m hm]
            exact lookup_setKey_self acc a.name v
          · exact ih hnd' hab (setKey acc b.name w) m hm

theorem parseInto_mem_keys_mono (sch : List Argument) (p : Payload)
    (k : String) :
    ∀ acc m, parseInto acc sch p = Except.ok m →
      k ∈ acc.map Prod.fst → k ∈ m.map Prod.fst := by
  induction sch with
  | nil =>
      intro acc m hm hk
      simp only [parseInto] at hm
      cases hm
      exact hk
  | cons b rest ih =>
      intro acc m hm hk
      cases hpb : parseArg b p with
      | error e' => simp [parseInto, hpb] at hm
      | ok v =>
          simp only [parseInto, hpb] at hm
          exact ih (setKey acc b.name v) m hm
            (mem_keys_setKey_of_mem acc b.name k v hk)

theorem parseInto_mem_keys (sch : List Argument) (p : Payload)
    (a : Argument) (ha : a ∈ sch) :
    ∀ acc m, parseInto acc sch p = Except.ok m →
      a.name ∈ m.map Prod.fst := by
  induction sch with
  | nil => cases ha
  | cons b rest ih =>
      intro acc m hm
      cases hpb : parseArg b p with
      | error e' => simp [parseInto, hpb] at hm
      | ok v =>
          simp only [parseInto, hpb] at hm
          rcases List.mem_cons.mp ha with hab | hab
          · subst hab
            exact parseInto_mem_keys_mono rest p a.name
              (setKey acc a.name v) m hm (mem_keys_setKey acc a.name v)
          · exact ih hab (setKey acc b.name v) m hm

theorem parseInto_keys_nodup (sch : List Argument) (p : Payload) :
    ∀ acc m, parseInto acc sch p = Except.ok m →
      (acc.map Prod.fst).Nodup → (m.map Prod.fst).Nodup := by
  induction sch with
  | nil =>
      intro acc m hm hacc
      simp only [parseInto] at hm
      cases hm
      exact hacc
  | cons b rest ih =>
      intro acc m hm hacc
      cases hpb : parseArg b p with
      | error e' => simp [parseInto, hpb] at hm
      | ok v =>
          simp only [parseInto, hpb] at hm
          exact ih (setKey acc b.name v) m hm
            (keys_setKey_nodup acc b.name v hacc)

theorem parseInto_values_none (sch : List Argument) (p : Payload)
    (hp : p = []) (hopt : ∀ a ∈ sch, a.required = false) :
    ∀ acc m, parseInto acc sch p = Except.ok m →
      (∀ kv ∈ acc, kv.2 = PyVal.none) → ∀ kv ∈ m, kv.2 = PyVal.none := by
  subst hp
  induction sch with
  | nil =>
      intro acc m hm hacc
      simp only [parseInto] at hm
      cases hm
      exact hacc
  | cons b rest ih =>
      intro acc m hm hacc
      have hb : parseArg b [] = Except.ok PyVal.none := by
        have : b.required = false := hopt b (by simp)
        simp [parseArg, List.lookup, this]
      simp only [parseInto, hb] at hm
      exact ih (fun a ha => hopt a (by simp [ha])) (setKey acc b.name PyVal.none)
        m hm (values_setKey_none acc b.name hacc)

/-- With an all-optional schema and an empty payload, parsing succeeds. -/
theorem parseInto_empty_payload_ok (sch : List Argument)
    (hopt : ∀ a ∈ sch, a.required = false) :
    ∀ acc, ∃ m, parseInto acc sch [] = Except.ok m := by
  induction sch with
  | nil => exact fun acc => ⟨acc, rfl⟩
  | cons b rest ih =>
      intro acc
      have hb : parseArg b [] = Except.ok PyVal.none := by
        have : b.required = false := hopt b (by simp)
        simp [parseArg, List.lookup, this]
      rcases ih (fun a ha => hopt a (by simp [ha])) (setKey acc b.name PyVal.none)
        with ⟨m, hm⟩
      exact ⟨m, by simp [parseInto, hb, hm]⟩

/-! ## `setattr` loop lemmas -/

theorem applyUpdate_not_mem (m : Args) (k : String)
    (h : k ∉ m.map Prod.fst) : ∀ r : Entity, applyUpdate r m k = r k := by
  induction m with
  | nil => intro r; rfl
  | cons kv rest ih =>
      obtain ⟨k₀, v₀⟩ := kv
      intro r
      have hk : k ≠ k₀ := by
        intro hh
        exact h (by simp [hh])
      have hr : k ∉ rest.map Prod.fst := by
        intro hh
        exact h (by simp [hh])
      show applyUpdate (setattr r k₀ v₀) rest k = r k
      rw [ih hr (setattr r k₀ v₀)]
      simp [setattr, hk]

theorem applyUpdate_lookup (m : Args) (k : String) (v : PyVal)
    (hnd : (m.map Prod.fst).Nodup) (h : m.lookup k = Option.some v) :
    ∀ r : Entity, applyUpdate r m k = v := by
  induction m with
  | nil => cases h
  | cons kv rest ih =>
      obtain ⟨k₀, v₀⟩ := kv
      intro r
      have hnd' : (rest.map Prod.fst).Nodup :=
        (List.nodup_cons.mp (by simpa using hnd)).2
      by_cases hk : k = k₀
      · subst hk
        have hv : v₀ = v := by
          simpa [List.lookup] using h
        subst hv
        have hk0 : k ∉ rest.map Prod.fst :=
          (List.nodup_cons.mp (by simpa using hnd)).1
        show applyUpdate (setattr r k v₀) rest k = v₀
        rw [applyUpdate_not_mem rest k hk0 (setattr r k v₀)]
        simp [setattr]
      · have hb : (k == k₀) = false := beq_eq_false_iff_ne.mpr hk
        have h' : rest.lookup k = Option.some v := by
          simpa [List.lookup, hb] using h
        exact ih hnd' h' (setattr r k₀ v₀)

theorem applyUpdate_none_of_all_none (m : Args) (k : String)
    (hall : ∀ kv ∈ m, kv.2 = PyVal.none) (hk : k ∈ m.map Prod.fst) :
    ∀ r : Entity, applyUpdate r m k = PyVal.none := by
  induction m with
  | nil => simp at hk
  | cons kv rest ih =>
      obtain ⟨k₀, v₀⟩ := kv
      intro r
      have hv₀ : v₀ = PyVal.none := hall (k₀, v₀) (by simp)
      subst hv₀
      by_cases hkr : k ∈ rest.map Prod.fst
      · exact ih (fun kv' hkv' => hall kv' (by simp [hkv'])) hkr
          (setattr r k₀ PyVal.none)
      · have hk0 : k = k₀ := by
          rcases (by simpa using hk : k = k₀ ∨ k ∈ rest.map Prod.fst) with h | h
          · exact h
          · exact absurd h hkr
        subst hk0
        show applyUpdate (setattr r k PyVal.none) rest k = PyVal.none
        rw [applyUpdate_not_mem rest k hkr (setattr r k PyVal.none)]
        simp [setattr]

/-! ## `parseArg` on the stored wrappers -/

/-- A required field with a conversion function, on an explicitly null raw
value: the stored wrapper raises before the declared conversion function
is consulted, for every conversion function `f`. -/
theorem parseArg_required_null (a : Argument)
    (f : PyVal → Except String PyVal) (p : Payload)
    (hreq : a.required = true) (hf : a.type = Option.some f)
    (hraw : p.lookup a.name = Option.some PyVal.none) :
    parseArg (RequestParser.add_argument a) p =
      Except.error (PyErr.validationError a.name "Required value may not be null") := by
  rw [add_argument_required_type a f hreq hf]
  simp [parseArg, hraw, RequestParser.new_type_func_required]

/-- An optional field with a conversion function, on an explicitly null
raw value: the stored wrapper returns null without consulting the declared
conversion function, for every conversion function `f`. -/
theorem parseArg_optional_null (a : Argument)
    (f : PyVal → Except String PyVal) (p : Payload)
    (hopt : a.required = false) (hf : a.type = Option.some f)
    (hraw : p.lookup a.name = Option.some PyVal.none) :
    parseArg (RequestParser.add_argument a) p = Except.ok PyVal.none := by
  rw [add_argument_optional_type a f hopt hf]
  simp [parseArg, hraw, RequestParser.new_type_func_optional]

/-! ## Claims about the Argument Parser -/

/-- C1: for every schema declaring a required field `F` with a conversion
function, parsing a payload in which `F`'s raw value is explicitly null
fails with a `ValidationError` whose message is the required-null message
("Required value may not be null"), and `F`'s conversion function is never
the source of the outcome: the statement holds for every conversion
function `f`. -/
theorem c1_required_null_rejected (ds : List Argument) (F : Argument)
    (f : PyVal → Except String PyVal) (p : Payload)
    (hF : F ∈ ds) (hreq : F.required = true) (hf : F.type = Option.some f)
    (hraw : p.lookup F.name = Option.some PyVal.none) :
    parseArg (RequestParser.add_argument F) p =
      Except.error (PyErr.validationError F.name "Required value may not be null") ∧
    ∃ err, parse_args (parserOf ds) p = Except.error err := by
  have h1 := parseArg_required_null F f p hreq hf hraw
  refine ⟨h1, ?_⟩
  exact parseInto_error_of_mem (parserOf ds) p (RequestParser.add_argument F) _
    (List.mem_map_of_mem _ hF) h1 []

/-- Witness for C1: the schema `{name: required string}` on the payload
`{name: null}` fails with the required-null validation error. -/
theorem c1_witness :
    parseArg (RequestParser.add_argument
        { name := "name", required := true, type := Option.some strConv })
        [("name", PyVal.none)] =
      Except.error (PyErr.validationError "name" "Required value may not be null") :=
  (c1_required_null_rejected
    [{ name := "name", required := true, type := Option.some strConv }]
    { name := "name", required := true, type := Option.some strConv }
    strConv [("name", PyVal.none)] (by simp) rfl rfl rfl).1

/-- C2: for every schema declaring an optional field `F` with a conversion
function, parsing a payload in which `F`'s raw value is explicitly null
yields result field `F = null`, and `F`'s conversion function is not
invoked: the statement holds for every conversion function `f`, including
one that raises on every input. -/
theorem c2_optional_null_bypasses (ds : List Argument) (F : Argument)
    (f : PyVal → Except String PyVal) (p : Payload)
    (hF : F ∈ ds) (hopt : F.required = false) (hf : F.type = Option.some f)
    (hraw : p.lookup F.name = Option.some PyVal.none) :
    parseArg (RequestParser.add_argument F) p = Except.ok PyVal.none ∧
    ((ds.map Argument.name).Nodup →
      ∀ m, parse_args (parserOf ds) p = Except.ok m →
        m.lookup F.name = Option.some PyVal.none) := by
  have h1 := parseArg_optional_null F f p hopt hf hraw
  refine ⟨h1, fun hnd m hm => ?_⟩
  have hnd' : ((parserOf ds).map Argument.name).Nodup := by
    rw [parserOf_names]
    exact hnd
  have h2 := parseInto_lookup_of_mem (parserOf ds) p
    (RequestParser.add_argument F) PyVal.none hnd'
    (List.mem_map_of_mem _ hF) h1 [] m hm
  rwa [add_argument_name] at h2

/-- Witness for C2: an optional field whose conversion function raises on
every input still parses an explicit null to null — the function is never
called. -/
theorem c2_witness :
    parseArg (RequestParser.add_argument
        { name := "age", required := false, type := Option.some throwConv })
        [("age", PyVal.none)] = Except.ok PyVal.none :=
  (c2_optional_null_bypasses
    [{ name := "age", required := false, type := Option.some throwConv }]
    { name := "age", required := false, type := Option.some throwConv }
    throwConv [("age", PyVal.none)] (by simp) rfl rfl rfl).1

/-- C3: a declared field with no conversion function passes its non-null
raw value through to the result unchanged, whether required or optional;
an optional such field passes an explicit null through as null; and the
field remains subject to the required-null check: when required and absent
or null, parsing fails with a `ValidationError`. -/
theorem c3_no_conversion_passthrough (ds : List Argument) (F : Argument)
    (p : Payload) (hF : F ∈ ds) (hf : F.type = Option.none) :
    (∀ v, p.lookup F.name = Option.some v → v ≠ PyVal.none →
        parseArg (RequestParser.add_argument F) p = Except.ok v) ∧
    ((ds.map Argument.name).Nodup →
      ∀ v, p.lookup F.name = Option.some v → v ≠ PyVal.none →
        ∀ m, parse_args (parserOf ds) p = Except.ok m →
          m.lookup F.name = Option.some v) ∧
    (F.required = false → p.lookup F.name = Option.some PyVal.none →
        parseArg (RequestParser.add_argument F) p = Except.ok PyVal.none) ∧
    (F.required = true →
      p.lookup F.name = Option.none ∨ p.lookup F.name = Option.some PyVal.none →
        ∃ err, parse_args (parserOf ds) p = Except.error err) := by
  rw [add_argument_no_type F hf]
  have hpass : ∀ v, p.lookup F.name = Option.some v → v ≠ PyVal.none →
      parseArg F p = Except.ok v := by
    intro v hraw hv
    have hc : ¬(F.required = true ∧ v = PyVal.none) := fun hc => hv hc.2
    simp [parseArg, hraw, hf, hc]
  refine ⟨hpass, fun hnd v hraw hv m hm => ?_, fun hopt hraw => ?_, fun hreq habs => ?_⟩
  · have hnd' : ((parserOf ds).map Argument.name).Nodup := by
      rw [parserOf_names]
      exact hnd
    have hFp : parseArg (RequestParser.add_argument F) p = Except.ok v := by
      rw [add_argument_no_type F hf]
      exact hpass v hraw hv
    have h2 := parseInto_lookup_of_mem (parserOf ds) p
      (RequestParser.add_argument F) v hnd'
      (List.mem_map_of_mem _ hF) hFp [] m hm
    rwa [add_argument_name] at h2
  · simp [parseArg, hraw, hf, hopt]
  · have herr : parseArg F p =
        Except.error (PyErr.validationError F.name "Required value may not be null") := by
      rcases habs with habs | habs
      · simp [parseArg, habs, hreq]
      · simp [parseArg, habs, hf, hreq]
    have hFp : parseArg (RequestParser.add_argument F) p =
        Except.error (PyErr.validationError F.name "Required value may not be null") := by
      rw [add_argument_no_type F hf]
      exact herr
    exact parseInto_error_of_mem (parserOf ds) p (RequestParser.add_argument F) _
      (List.mem_map_of_mem _ hF) hFp []

/-- Witness for C3: a field declared without a conversion function passes
the raw string through unchanged. -/
theorem c3_witness :
    parseArg (RequestParser.add_argument { name := "nick" })
        [("nick", PyVal.str "bob")] = Except.ok (PyVal.str "bob") :=
  (c3_no_conversion_passthrough [{ name := "nick" }] { name := "nick" }
    [("nick", PyVal.str "bob")] (by simp) rfl).1
    (PyVal.str "bob") rfl (by simp)

/-! ## Claims about the Single-Resource Controller -/

/-- C9: for every selector matching no stored row, `get`, `put` and
`delete` each answer 404 with the database unchanged — `put` does so for
every payload (the parser is never consulted), so the outcome is never a
validation or server error. -/
theorem c9_missing_selector_not_found (ds : List Argument)
    (sel : Entity → Bool) (db : List Entity)
    (h : ∀ r ∈ db, sel r = false) :
    SimpleResource.get sel db = RestResult.notFound ∧
    (∀ p, SimpleResource.put (parserOf ds) sel db p = (db, RestResult.notFound)) ∧
    SimpleResource.delete sel db = (db, RestResult.notFound) := by
  have hfil : db.filter sel = [] := by
    rw [List.filter_eq_nil_iff]
    intro a ha
    simp [h a ha]
  have hq : queryFirst sel db = Option.none := by
    simp [queryFirst, hfil]
  refine ⟨?_, fun p => ?_, ?_⟩
  · simp [SimpleResource.get, hq]
  · simp [SimpleResource.put, hq]
  · have hkeep : db.filter (fun r => !sel r) = db := by
      rw [List.filter_eq_self]
      intro a ha
      simp [h a ha]
    simp [SimpleResource.delete, hfil, hkeep]

/-- Witness for C9: a one-row database whose selector rejects the row:
reading yields 404. -/
theorem c9_witness :
    SimpleResource.get (fun r => decide (r "id" = PyVal.int 2))
        [fun _ => PyVal.int 1] = RestResult.notFound :=
  (c9_missing_selector_not_found [] (fun r => decide (r "id" = PyVal.int 2))
    [fun _ => PyVal.int 1]
    (by
      intro r hr
      rcases List.mem_singleton.mp hr with rfl
      simp)).1

/-- C8: updating an existing resource writes exactly the parsed fields:
every attribute outside the declared schema names is unchanged, and every
parsed field value is written.  Instantiated at the claim's scenario by
the witness: schema declaring only `x`, payload `{x: 5}`. -/
theorem c8_update_only_declared (ds : List Argument) (sel : Entity → Bool)
    (db db' : List Entity) (p : Payload) (r₀ r' : Entity)
    (hq : queryFirst sel db = Option.some r₀)
    (h : SimpleResource.put (parserOf ds) sel db p = (db', RestResult.ok r')) :
    (∀ a, a ∉ ds.map Argument.name → r' a = r₀ a) ∧
    (∀ m, parse_args (parserOf ds) p = Except.ok m →
      ∀ k v, m.lookup k = Option.some v → r' k = v) := by
  rcases hparse : parse_args (parserOf ds) p with e | m₀
  · simp only [SimpleResource.put, hq, hparse] at h
    simp [Prod.ext_iff] at h
  · simp only [SimpleResource.put, hq, hparse] at h
    have hr' : r' = applyUpdate r₀ m₀ := by
      have := congrArg Prod.snd h
      simp only at this
      cases this
      rfl
    constructor
    · intro a ha
      have hkeys : a ∉ m₀.map Prod.fst := by
        intro hk
        rcases parseInto_keys (parserOf ds) p [] m₀ hparse a hk with h' | h'
        · simp at h'
        · rw [parserOf_names] at h'
          exact ha h'
      rw [hr']
      exact applyUpdate_not_mem m₀ a hkeys r₀
    · intro m hm k v hkv
      cases hm
      have hnd : (m₀.map Prod.fst).Nodup :=
        parseInto_keys_nodup (parserOf ds) p [] m₀ hparse (by simp)
      rw [hr']
      exact applyUpdate_lookup m₀ k v hnd hkv r₀

/-- Witness for C8: schema declaring only `x`, payload `{x: 5}` on an
existing resource: the attribute `y` is untouched by the update. -/
theorem c8_witness :
    (applyUpdate (fun _ => PyVal.str "old") [("x", PyVal.int 5)]) "y"
      = PyVal.str "old" :=
  (c8_update_only_declared [{ name := "x" }] (fun _ => true)
    [fun _ => PyVal.str "old"]
    [applyUpdate (fun _ => PyVal.str "old") [("x", PyVal.int 5)]]
    [("x", PyVal.int 5)] (fun _ => PyVal.str "old")
    (applyUpdate (fun _ => PyVal.str "old") [("x", PyVal.int 5)])
    rfl rfl).1 "y" (by simp)

/-- C10: updating an existing resource writes every declared field onto
the entity, including optional fields absent from the payload, which are
parsed as null: an update with an empty payload overwrites every declared
(all-optional) field with null and leaves every undeclared attribute
unchanged. -/
theorem c10_empty_payload_nulls_declared (ds : List Argument)
    (sel : Entity → Bool) (db : List Entity) (r₀ : Entity)
    (hq : queryFirst sel db = Option.some r₀)
    (hopt : ∀ a ∈ ds, a.required = false) :
    ∃ r', (SimpleResource.put (parserOf ds) sel db []).2 = RestResult.ok r' ∧
      (∀ a ∈ ds, r' a.name = PyVal.none) ∧
      (∀ k, k ∉ ds.map Argument.name → r' k = r₀ k) := by
  have hopt' : ∀ a ∈ parserOf ds, a.required = false := by
    intro a ha
    rcases List.mem_map.mp ha with ⟨b, hb, rfl⟩
    rw [add_argument_required]
    exact hopt b hb
  obtain ⟨m, hm⟩ := parseInto_empty_payload_ok (parserOf ds) hopt' []
  have hparse : parse_args (parserOf ds) [] = Except.ok m := hm
  refine ⟨applyUpdate r₀ m, ?_, ?_, ?_⟩
  · simp [SimpleResource.put, hq, hparse]
  · intro a ha
    have hmem : a.name ∈ m.map Prod.fst := by
      have := parseInto_mem_keys (parserOf ds) []
        (RequestParser.add_argument a) (List.mem_map_of_mem _ ha) [] m hm
      rwa [add_argument_name] at this
    have hall : ∀ kv ∈ m, kv.2 = PyVal.none :=
      parseInto_values_none (parserOf ds) [] rfl hopt' [] m hm (by simp)
    exact applyUpdate_none_of_all_none m a.name hall hmem r₀
  · intro k hk
    have hkeys : k ∉ m.map Prod.fst := by
      intro hkm
      rcases parseInto_keys (parserOf ds) [] [] m hm k hkm with h' | h'
      · simp at h'
      · rw [parserOf_names] at h'
        exact hk h'
    exact applyUpdate_not_mem m k hkeys r₀

/-- Witness for C10: an all-optional one-field schema `{age}` updated with
an empty payload: the located entity's `age` is overwritten with null and
other attributes survive. -/
theorem c10_witness :
    ∃ r', (SimpleResource.put
        (parserOf [{ name := "age", required := false,
                     type := Option.some intConv }])
        (fun _ => true) [fun _ => PyVal.int 3] []).2 = RestResult.ok r' ∧
      (∀ a ∈ [({ name := "age", required := false,
                 type := Option.some intConv } : Argument)],
          r' a.name = PyVal.none) ∧
      (∀ k, k ∉ ([{ name := "age", required := false,
                    type := Option.some intConv }] : List Argument).map
            Argument.name → r' k = (fun _ => PyVal.int 3 : Entity) k) :=
  c10_empty_payload_nulls_declared
    [{ name := "age", required := false, type := Option.some intConv }]
    (fun _ => true) [fun _ => PyVal.int 3] (fun _ => PyVal.int 3) rfl
    (by
      intro a ha
      rcases List.mem_singleton.mp ha with rfl
      rfl)

/-! ## Claims about the link controllers -/

/-- C5: one-to-many child creation: when the storage layer's
referential-integrity rule rejects the insert (the parent id is not among
the existing parents), the operation answers 404 instead of letting the
constraint error escape; when the parent exists, it answers the created
child, whose parent-reference field equals the given parent id and whose
`creator_id` equals the caller's identity. -/
theorem c5_child_creation (ds : List Argument) (parent_id_name : String)
    (current_user_id : PyVal) (parents : List PyVal) (parent_id : PyVal)
    (p : Payload) (m : Args)
    (hparse : parse_args (parserOf ds) p = Except.ok m) :
    (parent_id ∉ parents →
      ManyToOneLink.post (parserOf ds) parent_id_name current_user_id
          (ManyToOneLink.fkViolates parents parent_id_name) parent_id p =
        Except.ok RestResult.notFound) ∧
    (parent_id ∈ parents →
      ∃ r, ManyToOneLink.post (parserOf ds) parent_id_name current_user_id
          (ManyToOneLink.fkViolates parents parent_id_name) parent_id p =
            Except.ok (RestResult.created r) ∧
        r parent_id_name = parent_id ∧
        (parent_id_name ≠ "creator_id" → r "creator_id" = current_user_id)) := by
  have hargs : ManyToOneLink.build_args (parserOf ds) parent_id_name
      current_user_id parent_id p =
      Except.ok (setKey (setKey m "creator_id" current_user_id)
        parent_id_name parent_id) := by
    simp [ManyToOneLink.build_args, hparse]
  set args := setKey (setKey m "creator_id" current_user_id)
    parent_id_name parent_id with hargsdef
  have hparent : entityOf args parent_id_name = parent_id := by
    show (args.lookup parent_id_name).getD PyVal.none = parent_id
    rw [hargsdef, lookup_setKey_self]
    rfl
  constructor
  · intro hnp
    have hviol : ManyToOneLink.fkViolates parents parent_id_name
        (entityOf args) = true := by
      unfold ManyToOneLink.fkViolates
      rw [hparent]
      simp [hnp]
    simp [ManyToOneLink.post, hargs, ManyToOneLink.create_resource, dbInsert, hviol]
  · intro hp
    have hviol : ManyToOneLink.fkViolates parents parent_id_name
        (entityOf args) = false := by
      unfold ManyToOneLink.fkViolates
      rw [hparent]
      simp [hp]
    refine ⟨entityOf args, ?_, hparent, fun hne => ?_⟩
    · simp [ManyToOneLink.post, hargs, ManyToOneLink.create_resource, dbInsert, hviol]
    · show (args.lookup "creator_id").getD PyVal.none = current_user_id
      rw [hargsdef, lookup_setKey_ne _ _ _ _ (Ne.symm hne), lookup_setKey_self]
      rfl

/-- Witness for C5: creating a child under existing parent id 3 with an
empty schema: the child carries `quest_id = 3` and the caller's identity. -/
theorem c5_witness :
    ∃ r, ManyToOneLink.post (parserOf []) "quest_id" (PyVal.int 7)
        (ManyToOneLink.fkViolates [PyVal.int 3] "quest_id") (PyVal.int 3) [] =
          Except.ok (RestResult.created r) ∧
      r "quest_id" = PyVal.int 3 ∧
      ("quest_id" ≠ "creator_id" → r "creator_id" = PyVal.int 7) :=
  (c5_child_creation [] "quest_id" (PyVal.int 7) [PyVal.int 3] (PyVal.int 3)
    [] [] rfl).2 (by simp)

/-- C6: many-to-many `link` is idempotent: it never raises (the
unique-constraint violation is absorbed), linking an already-linked pair
leaves the join relation unchanged, linking twice equals linking once,
and after linking a fresh pair twice exactly one association row for the
pair exists. -/
theorem c6_link_idempotent (tbl : ManyToManyLink.JoinTable) (L R : PyVal) :
    (∃ t, ManyToManyLink.put tbl L R = Except.ok t) ∧
    ((L, R) ∈ tbl → ManyToManyLink.put tbl L R = Except.ok tbl) ∧
    (∀ t₁, ManyToManyLink.put tbl L R = Except.ok t₁ →
      ManyToManyLink.put t₁ L R = Except.ok t₁) ∧
    ((L, R) ∉ tbl → ∀ t₁ t₂, ManyToManyLink.put tbl L R = Except.ok t₁ →
      ManyToManyLink.put t₁ L R = Except.ok t₂ → t₂.count (L, R) = 1) := by
  by_cases hmem : (L, R) ∈ tbl
  · have hput : ManyToManyLink.put tbl L R = Except.ok tbl := by
      simp [ManyToManyLink.put, ManyToManyLink.joinInsert, hmem]
    refine ⟨⟨tbl, hput⟩, fun _ => hput, fun t₁ ht₁ => ?_, fun hnm => absurd hmem hnm⟩
    rw [hput] at ht₁
    cases ht₁
    exact hput
  · have hput : ManyToManyLink.put tbl L R = Except.ok (tbl ++ [(L, R)]) := by
      simp [ManyToManyLink.put, ManyToManyLink.joinInsert, hmem]
    have hmem' : (L, R) ∈ tbl ++ [(L, R)] := by simp
    have hput' : ManyToManyLink.put (tbl ++ [(L, R)]) L R =
        Except.ok (tbl ++ [(L, R)]) := by
      simp [ManyToManyLink.put, ManyToManyLink.joinInsert, hmem']
    refine ⟨⟨tbl ++ [(L, R)], hput⟩, fun hc => absurd hc hmem,
      fun t₁ ht₁ => ?_, fun _ t₁ t₂ ht₁ ht₂ => ?_⟩
    · rw [hput] at ht₁
      cases ht₁
      exact hput'
    · rw [hput] at ht₁
      cases ht₁
      rw [hput'] at ht₂
      cases ht₂
      have hz : tbl.count (L, R) = 0 := List.count_eq_zero.mpr hmem
      simp [List.count_append, hz]

/-- Witness for C6: linking `(1, 2)` twice starting from an empty join
relation leaves exactly one association row for the pair. -/
theorem c6_witness :
    ([] ++ [(PyVal.int 1, PyVal.int 2)] : ManyToManyLink.JoinTable).count
        (PyVal.int 1, PyVal.int 2) = 1 :=
  (c6_link_idempotent [] (PyVal.int 1) (PyVal.int 2)).2.2.2 (by simp)
    ([] ++ [(PyVal.int 1, PyVal.int 2)]) ([] ++ [(PyVal.int 1, PyVal.int 2)])
    rfl rfl

/-! ## Claims about constraint-violation handling -/

/-- Counterexample to C7: the owned-resource creator's insert has no
exception handler (`resource.py` lines 119-128).  With a schema declaring
a `name` field, a payload `{name: "taken"}` and a storage layer whose
uniqueness rule rejects a row named "taken", `SimpleCreate.post` lets the
raw `IntegrityError` propagate to the caller instead of handling it
locally. -/
theorem c7_counterexample :
    SimpleCreate.post
        (parserOf [{ name := "name", required := true }])
        (PyVal.int 7)
        (fun r => decide (r "name" = PyVal.str "taken"))
        [("name", PyVal.str "taken")] =
      Except.error IntegrityError.constraintViolation := rfl

/-- C7 (amended): a storage-layer constraint violation is translated to
404 for missing-parent child creation and silently absorbed for redundant
many-to-many links — those two operations never let the low-level error
escape — but the owned-resource creator's unconditional insert has no
local handler: whenever the storage layer's rule rejects the new row, the
raw constraint error propagates to the caller. -/
theorem c7_constraint_translation :
    (∀ (tbl : ManyToManyLink.JoinTable) (L R : PyVal),
      ∃ t, ManyToManyLink.put tbl L R = Except.ok t) ∧
    (∀ (sch : List Argument) (parent_id_name : String)
        (current_user_id : PyVal) (violates : Entity → Bool)
        (parent_id : PyVal) (p : Payload),
      ∃ res, ManyToOneLink.post sch parent_id_name current_user_id
        violates parent_id p = Except.ok res) ∧
    (∀ (sch : List Argument) (current_user_id : PyVal)
        (violates : Entity → Bool) (p : Payload) (m : Args),
      parse_args sch p = Except.ok m →
      violates (entityOf (setKey m "creator_id" current_user_id)) = true →
      SimpleCreate.post sch current_user_id violates p =
        Except.error IntegrityError.constraintViolation) := by
  refine ⟨fun tbl L R => ?_, ?_, ?_⟩
  · by_cases hmem : (L, R) ∈ tbl
    · exact ⟨tbl, by simp [ManyToManyLink.put, ManyToManyLink.joinInsert, hmem]⟩
    · exact ⟨tbl ++ [(L, R)],
        by simp [ManyToManyLink.put, ManyToManyLink.joinInsert, hmem]⟩
  · intro sch parent_id_name current_user_id violates parent_id p
    rcases hb : ManyToOneLink.build_args sch parent_id_name
        current_user_id parent_id p with e | args
    · exact ⟨RestResult.badRequest e, by simp [ManyToOneLink.post, hb]⟩
    · by_cases hv : violates (entityOf args) = true
      · refine ⟨RestResult.notFound, ?_⟩
        simp [ManyToOneLink.post, hb, ManyToOneLink.create_resource, dbInsert, hv]
      · refine ⟨RestResult.created (entityOf args), ?_⟩
        simp only [Bool.not_eq_true] at hv
        simp [ManyToOneLink.post, hb, ManyToOneLink.create_resource, dbInsert, hv]
  · intro sch current_user_id violates p m hparse hv
    simp [SimpleCreate.post, hparse, dbInsert, hv]

/-- Witness for C7 (amended): a storage rule that rejects every row makes
the owned-resource creator propagate the raw constraint error. -/
theorem c7_witness :
    SimpleCreate.post (parserOf []) (PyVal.int 9) (fun _ => true) [] =
      Except.error IntegrityError.constraintViolation :=
  c7_constraint_translation.2.2 (parserOf []) (PyVal.int 9) (fun _ => true)
    [] [] rfl rfl

/-- C4 (what the code actually does): for integer ids, the `where` clause
of `ManyToManyLink.delete` compares the column-name strings with the ids
in Python, which is constantly false, so the delete matches no rows: the
join relation is returned unchanged — the matching association row is
never removed — and the call always answers 404, even when the `(L, R)`
row is present. -/
theorem c4_unlink_never_deletes (left_id_name right_id_name : String)
    (tbl : ManyToManyLink.JoinTable) (l r : Int) :
    ManyToManyLink.delete left_id_name right_id_name tbl
        (PyVal.int l) (PyVal.int r) = (tbl, RestResult.notFound) := rfl
